import Mathlib

/-!
Verification of the catalog-to-merchant-feed transformation pipeline
(`transformers/product.js`, `processors/aco/products.js`, `actions/utils.js`).

The JavaScript sources are shallowly embedded as executable Lean
definitions.  Modelling conventions, chosen to match JavaScript dynamic
semantics on the data shapes this program actually handles:

* A commerce attribute value is a `String`; the empty string stands for a
  falsy value (`""`, `null`, `undefined`), matching the pervasive
  `attr?.value || null` truthiness tests in the source.
* A price amount (`amount.value`) is an `Option Rat`: `none` models a
  `null`/missing value, matching the `amount == null` check.
* A thrown `Error` is modelled by `Except String`.
* `Math.round` on a rational is `round` (round half toward positive
  infinity), exactly the JavaScript semantics on exact decimal inputs.
* A JavaScript object spread (`{...a, ...b}`) over the fixed set of
  recognized standard fields is a record update that overrides a field of
  `a` exactly when `b` carries that key.
-/

/-- The roles/url of one entry of a Commerce `images` array. -/
structure CommerceImage where
  url : String
  roles : List String
deriving DecidableEq, Repr

/-- One name/value pair of a Commerce `attributes` array.  An empty
`value` models a falsy (null/empty) attribute value. -/
structure CommerceAttribute where
  name : String
  value : String
deriving DecidableEq, Repr

/-- A money amount: `value` is `none` when the JSON value is null. -/
structure CommerceAmount where
  value : Option Rat
  currency : String
deriving DecidableEq, Repr

/-- The slice of a Commerce product record used by the transformer.
`priceFinalAmount` embeds `product.price?.final?.amount` (`none` when any
link of the optional chain is absent); `priceRangeMinimumFinalAmount`
embeds `product.priceRange?.minimum?.final?.amount`. -/
structure CommerceProduct where
  sku : String
  urlKey : String
  name : String
  description : String
  shortDescription : String
  inStock : Bool
  priceFinalAmount : Option CommerceAmount
  priceRangeMinimumFinalAmount : Option CommerceAmount
  attributes : List CommerceAttribute
  images : List CommerceImage
deriving DecidableEq, Repr

/-- A variant entry of the variants query: option selections plus the
variant product record. -/
structure CommerceVariant where
  selections : List String
  product : CommerceProduct
deriving DecidableEq, Repr

/-- Google Availability enum (`@google-shopping/products`). -/
inductive Availability where
  | IN_STOCK
  | OUT_OF_STOCK
deriving DecidableEq, Repr

/-- Google Condition enum (`@google-shopping/products`). -/
inductive Condition where
  | NEW
  | USED
  | REFURBISHED
deriving DecidableEq, Repr

/-- `toMicros`: `Math.round(amount * 1_000_000)`.  `Math.round` rounds
half toward positive infinity, which is `round` on the rationals. -/
def toMicros (amount : Rat) : Int := round (amount * 1000000)

/-- `getAttributeValue`: find the first attribute with the given name and
return its value, with falsy values collapsed to `null`
(`attr?.value || null`). -/
def getAttributeValue (attributes : List CommerceAttribute) (n : String) :
    Option String :=
  match attributes.find? (fun a => a.name == n) with
  | some a => if a.value == "" then none else some a.value
  | none => none

/-- Google price shape `{amountMicros, currencyCode}` as produced by
`transformPrice`. -/
structure GooglePrice where
  amountMicros : Int
  currencyCode : String
deriving DecidableEq, Repr

/-- `transformPrice`: take the direct final amount when the amount object
exists, otherwise the price-range minimum final amount; return null when
the chosen amount has a null value or falsy currency. -/
def transformPrice (product : CommerceProduct) : Option GooglePrice :=
  match product.priceFinalAmount with
  | some m =>
      match m.value with
      | some v => if m.currency == "" then none else
          some { amountMicros := toMicros v, currencyCode := m.currency }
      | none => none
  | none =>
      match product.priceRangeMinimumFinalAmount with
      | some m =>
          match m.value with
          | some v => if m.currency == "" then none else
              some { amountMicros := toMicros v, currencyCode := m.currency }
          | none => none
      | none => none

/-- `getAvailability`. -/
def getAvailability (inStock : Bool) : Availability :=
  if inStock then .IN_STOCK else .OUT_OF_STOCK

/-- `String.prototype.toLowerCase` on the ASCII identifiers this
program compares. -/
def jsToLower (s : String) : String := String.mk (s.data.map Char.toLower)

/-- `mapCondition`: lowercase lookup in the condition map, defaulting to
`NEW` on a miss or a null input. -/
def mapCondition (condition : Option String) : Condition :=
  match condition with
  | none => .NEW
  | some s =>
      let k := jsToLower s
      if k == "new" then .NEW
      else if k == "used" then .USED
      else if k == "refurbished" then .REFURBISHED
      else .NEW

/-- Whether the second character list starts with the first. -/
def startsWithChars : List Char → List Char → Bool
  | [], _ => true
  | _ :: _, [] => false
  | p :: ps, c :: cs => p == c && startsWithChars ps cs

/-- Replace the first (leftmost) occurrence of `pat` in a character
list by `rep`. -/
def replaceFirstChars (pat rep : List Char) : List Char → List Char
  | [] => []
  | c :: cs =>
      if startsWithChars pat (c :: cs) then rep ++ (c :: cs).drop pat.length
      else c :: replaceFirstChars pat rep cs

/-- Replace the first occurrence of `pat` in `s` by `rep`
(JavaScript `String.prototype.replace` with a string pattern; an empty
pattern matches at position zero). -/
def replaceFirst (s pat rep : String) : String :=
  if pat == "" then rep ++ s
  else String.mk (replaceFirstChars pat.data rep.data s.data)

/-- `getProductUrl`: substitute the first `\x7bsku\x7d` and the first
`\x7burlKey\x7d` placeholder of the template. -/
def getProductUrl (product : CommerceProduct) (urlTemplate : String) : String :=
  replaceFirst (replaceFirst urlTemplate "{sku}" product.sku) "{urlKey}"
    product.urlKey

/-- JavaScript `a || b` on strings (empty string is falsy). -/
def jsOr (a b : String) : String := if a == "" then b else a

/-- `getPrimaryImageUrl`: the first image flagged with role `image`, else
the first image; falsy urls fall through (`mainImage?.url ||
images[0]?.url || null`). -/
def getPrimaryImageUrl (images : List CommerceImage) : Option String :=
  match images with
  | [] => none
  | _ =>
      let fromMain :=
        match images.find? (fun img => img.roles.contains "image") with
        | some img => if img.url == "" then none else some img.url
        | none => none
      match fromMain with
      | some u => some u
      | none =>
          match images.head? with
          | some img => if img.url == "" then none else some img.url
          | none => none

/-- First-occurrence deduplication (JavaScript `new Set`). -/
def dedup : List String → List String
  | [] => []
  | x :: xs => x :: (dedup xs).filter (fun y => !(y == x))

/-- `getAdditionalImageUrls`: deduplicated urls minus the primary url. -/
def getAdditionalImageUrls (images : List CommerceImage) : List String :=
  if images.length ≤ 1 then []
  else
    let primaryUrl := getPrimaryImageUrl images
    let uniqueUrls := dedup (images.map (fun img => img.url))
    uniqueUrls.filter (fun url => !(some url == primaryUrl))

/-- The `GOOGLE_STANDARD_FIELDS` constant. -/
def GOOGLE_STANDARD_FIELDS : List String :=
  ["gtin", "mpn", "brand", "condition", "color", "size", "gender",
   "ageGroup", "material", "pattern", "googleProductCategory", "itemGroupId"]

/-- The dynamic `standard` object accumulated by `categorizeAttributes`:
one optional slot per recognized Google standard field (a `gtin`
attribute is stored as the one-element `gtins` array). -/
structure StandardFields where
  gtins : Option (List String) := none
  mpn : Option String := none
  brand : Option String := none
  condition : Option String := none
  color : Option String := none
  size : Option String := none
  gender : Option String := none
  ageGroup : Option String := none
  material : Option String := none
  pattern : Option String := none
  googleProductCategory : Option String := none
  itemGroupId : Option String := none
deriving DecidableEq, Repr

/-- One assignment `standard[name] = value` for a recognized standard
field name (with the `gtin` special case producing `gtins = [value]`). -/
def setStandardField (s : StandardFields) (n v : String) : StandardFields :=
  if n == "gtin" then { s with gtins := some [v] }
  else if n == "mpn" then { s with mpn := some v }
  else if n == "brand" then { s with brand := some v }
  else if n == "condition" then { s with condition := some v }
  else if n == "color" then { s with color := some v }
  else if n == "size" then { s with size := some v }
  else if n == "gender" then { s with gender := some v }
  else if n == "ageGroup" then { s with ageGroup := some v }
  else if n == "material" then { s with material := some v }
  else if n == "pattern" then { s with pattern := some v }
  else if n == "googleProductCategory" then
    { s with googleProductCategory := some v }
  else if n == "itemGroupId" then { s with itemGroupId := some v }
  else s

/-- One step of the `categorizeAttributes` loop: skip falsy values, route
recognized names into the standard-field object and the rest into the
custom list. -/
def categorizeStep (acc : StandardFields × List CommerceAttribute)
    (attr : CommerceAttribute) : StandardFields × List CommerceAttribute :=
  if attr.value == "" then acc
  else if GOOGLE_STANDARD_FIELDS.contains attr.name then
    (setStandardField acc.1 attr.name attr.value, acc.2)
  else (acc.1, acc.2 ++ [attr])

/-- `categorizeAttributes` (revision with `getIdentifiers`): split a
record's attributes into Google standard fields and custom attributes. -/
def categorizeAttributes (attributes : List CommerceAttribute) :
    StandardFields × List CommerceAttribute :=
  attributes.foldl categorizeStep ({}, [])

/-- The object returned by `getIdentifiers`: empty, `\x7bmpn\x7d`, or
`\x7bidentifierExists: false\x7d`. -/
structure IdentifierFields where
  mpn : Option String := none
  identifierExists : Option Bool := none
deriving DecidableEq, Repr

/-- The `manufacturerSku` scan of `getIdentifiers`: first truthy
`manufacturerSku` value among the attribute sources, in order. -/
def findManufacturerSku : List (List CommerceAttribute) → Option String
  | [] => none
  | attrs :: rest =>
      match getAttributeValue attrs "manufacturerSku" with
      | some v => some v
      | none => findManufacturerSku rest

/-- `getIdentifiers`: return no identifier fields when `gtins` or `mpn`
is already set; otherwise resolve `mpn` from a `manufacturerSku`
attribute when a brand exists, else flag `identifierExists = false`. -/
def getIdentifiers (standardFields : StandardFields)
    (attributeSources : List (List CommerceAttribute)) : IdentifierFields :=
  if standardFields.gtins.isSome || standardFields.mpn.isSome then {}
  else
    match findManufacturerSku attributeSources with
    | some m =>
        if standardFields.brand.isSome then { mpn := some m }
        else { identifierExists := some false }
    | none => { identifierExists := some false }

/-- Decimal numeric reading of an attribute value string; models the
JavaScript number coercion applied when an attribute value (for example
`shippingPrice`) is used in arithmetic.  `none` models `NaN`. -/
def parseDecimal (s : String) : Option Rat :=
  let core := fun (t : String) =>
    match t.splitOn "." with
    | [i] => (i.toNat?).map (fun n => mkRat n 1)
    | [i, f] =>
        match i.toNat?, f.toNat? with
        | some n, some fr => some (mkRat n 1 + mkRat fr (10 ^ f.length))
        | _, _ => none
    | _ => none
  if s.startsWith "-" then (core (s.drop 1)).map (fun q => -q)
  else core s

/-- `Math.round(value * 1_000_000)` applied to an attribute value string;
`none` models the `NaN` produced by an unparsable value. -/
def toMicrosOfString (s : String) : Option Int := (parseDecimal s).map toMicros

/-- Shipping price shape: `amountMicros` is optional because a shipping
attribute string flows through numeric coercion (`none` models `NaN`). -/
structure ShippingPrice where
  amountMicros : Option Int
  currencyCode : String
deriving DecidableEq, Repr

/-- One entry of the `shipping` array. -/
structure ShippingEntry where
  price : ShippingPrice
  country : String
  service : String
deriving DecidableEq, Repr

/-- `getShippingInfo` (revision with `getIdentifiers`): always emits an
entry; a missing `shippingPrice` collapses to `0`
(`toMicros(shippingPrice || 0)`), the currency falls back from a
`shippingCurrency` attribute to `transformPrice(product).currencyCode`.
The empty-string currency branch is unreachable from the transforms,
which call this only after the price check has succeeded. -/
def getShippingInfo (product : CommerceProduct) (country : String) :
    ShippingEntry :=
  let shippingMethod := getAttributeValue product.attributes "shippingMethod"
  let shippingPrice := getAttributeValue product.attributes "shippingPrice"
  { price :=
      { amountMicros :=
          match shippingPrice with
          | some sp => toMicrosOfString sp
          | none => some (toMicros 0)
        currencyCode :=
          match getAttributeValue product.attributes "shippingCurrency" with
          | some c => c
          | none =>
              match transformPrice product with
              | some pr => pr.currencyCode
              | none => "" }
    country := country
    service := shippingMethod.getD "standard" }

/-- The value held by the transformed `condition` field: the enum value
computed by `mapCondition`, unless a truthy `condition` attribute is
spread over it afterwards, in which case it is the raw attribute
string. -/
inductive GoogleCondition where
  | enumVal (c : Condition)
  | strVal (s : String)
deriving DecidableEq, Repr

/-- The transformed `productAttributes` object. -/
structure ProductAttributes where
  title : String
  description : String
  link : String
  imageLink : Option String
  availability : Availability
  condition : GoogleCondition
  shipping : Option (List ShippingEntry) := none
  price : GooglePrice
  gtins : Option (List String) := none
  mpn : Option String := none
  brand : Option String := none
  color : Option String := none
  size : Option String := none
  gender : Option String := none
  ageGroup : Option String := none
  material : Option String := none
  pattern : Option String := none
  googleProductCategory : Option String := none
  itemGroupId : Option String := none
  identifierExists : Option Bool := none
  additionalImageLinks : Option (List String) := none
deriving DecidableEq, Repr

/-- The spread `...standard` over the product attributes object: each
key present in the standard-field object overrides the base field; a
string spread over the computed `condition` enum replaces it with the
raw string. -/
def applyStandard (pa : ProductAttributes) (s : StandardFields) :
    ProductAttributes :=
  { pa with
    gtins := match s.gtins with | some v => some v | none => pa.gtins
    mpn := match s.mpn with | some v => some v | none => pa.mpn
    brand := match s.brand with | some v => some v | none => pa.brand
    condition :=
      match s.condition with
      | some v => .strVal v
      | none => pa.condition
    color := match s.color with | some v => some v | none => pa.color
    size := match s.size with | some v => some v | none => pa.size
    gender := match s.gender with | some v => some v | none => pa.gender
    ageGroup := match s.ageGroup with | some v => some v | none => pa.ageGroup
    material := match s.material with | some v => some v | none => pa.material
    pattern := match s.pattern with | some v => some v | none => pa.pattern
    googleProductCategory :=
      match s.googleProductCategory with
      | some v => some v
      | none => pa.googleProductCategory
    itemGroupId :=
      match s.itemGroupId with
      | some v => some v
      | none => pa.itemGroupId }

/-- The spread `...identifiers` over the product attributes object. -/
def applyIdentifiers (pa : ProductAttributes) (i : IdentifierFields) :
    ProductAttributes :=
  { pa with
    mpn := match i.mpn with | some v => some v | none => pa.mpn
    identifierExists :=
      match i.identifierExists with
      | some b => some b
      | none => pa.identifierExists }

/-- The merge `\x7b...parentCategorized.standard,
...variantCategorized.standard\x7d`: the variant value wins whenever it
carries the key. -/
def mergeStandard (p v : StandardFields) : StandardFields :=
  { gtins := match v.gtins with | some x => some x | none => p.gtins
    mpn := match v.mpn with | some x => some x | none => p.mpn
    brand := match v.brand with | some x => some x | none => p.brand
    condition := match v.condition with | some x => some x | none => p.condition
    color := match v.color with | some x => some x | none => p.color
    size := match v.size with | some x => some x | none => p.size
    gender := match v.gender with | some x => some x | none => p.gender
    ageGroup := match v.ageGroup with | some x => some x | none => p.ageGroup
    material := match v.material with | some x => some x | none => p.material
    pattern := match v.pattern with | some x => some x | none => p.pattern
    googleProductCategory :=
      match v.googleProductCategory with
      | some x => some x
      | none => p.googleProductCategory
    itemGroupId :=
      match v.itemGroupId with
      | some x => some x
      | none => p.itemGroupId }

/-- The final `IProductInput` object built by `buildProductInput`. -/
structure ProductInput where
  contentLanguage : String
  feedLabel : String
  offerId : String
  productAttributes : ProductAttributes
  customAttributes : Option (List CommerceAttribute)
deriving DecidableEq, Repr

/-- `buildProductInput`. -/
def buildProductInput (feedLabel language offerId : String)
    (productAttributes : ProductAttributes)
    (customAttributes : List CommerceAttribute) : ProductInput :=
  { contentLanguage := language
    feedLabel := feedLabel
    offerId := offerId
    productAttributes := productAttributes
    customAttributes :=
      if customAttributes.isEmpty then none else some customAttributes }

/-- `transformProduct` (revision with `getIdentifiers`,
`transformers/product.js`): throws when the product has no price, then
builds the product attributes and spreads the categorized standard
fields, the identifier fields and the additional images over them. -/
def transformProduct (feedLabel : String) (product : CommerceProduct)
    (language country urlTemplate : String) : Except String ProductInput :=
  let attributes := product.attributes
  let images := product.images
  match transformPrice product with
  | none => .error ("Product " ++ product.sku ++ " does not have a price")
  | some price =>
      let categorized := categorizeAttributes attributes
      let standard := categorized.1
      let custom := categorized.2
      let identifiers := getIdentifiers standard [attributes]
      let additionalImages := getAdditionalImageUrls images
      let base : ProductAttributes :=
        { title := product.name
          description := jsOr product.description product.shortDescription
          link := getProductUrl product urlTemplate
          imageLink := getPrimaryImageUrl images
          availability := getAvailability product.inStock
          condition :=
            .enumVal (mapCondition (getAttributeValue attributes "condition"))
          shipping := some [getShippingInfo product country]
          price := price }
      let withStandard := applyStandard base standard
      let withIdentifiers := applyIdentifiers withStandard identifiers
      let pa :=
        if additionalImages.isEmpty then withIdentifiers
        else { withIdentifiers with additionalImageLinks := some additionalImages }
      .ok (buildProductInput feedLabel language product.sku pa custom)

/-- `transformVariant` (revision with `getIdentifiers`): price check on
the variant record, parent and variant standard fields merged with the
variant winning, link built from the parent record, `itemGroupId` set to
the parent SKU before the standard-field spread. -/
def transformVariant (feedLabel : String) (parentProduct : CommerceProduct)
    (variant : CommerceVariant) (language country urlTemplate : String) :
    Except String ProductInput :=
  let variantProduct := variant.product
  let parentAttributes := parentProduct.attributes
  let variantAttributes := variantProduct.attributes
  let images :=
    if variantProduct.images.length > 0 then variantProduct.images
    else parentProduct.images
  match transformPrice variantProduct with
  | none =>
      .error ("Variant " ++ variantProduct.sku ++ " does not have a price")
  | some price =>
      let parentCategorized := categorizeAttributes parentAttributes
      let variantCategorized := categorizeAttributes variantAttributes
      let mergedAttributes :=
        mergeStandard parentCategorized.1 variantCategorized.1
      let identifiers :=
        getIdentifiers mergedAttributes [variantAttributes, parentAttributes]
      let additionalImages := getAdditionalImageUrls images
      let base : ProductAttributes :=
        { title := jsOr variantProduct.name parentProduct.name
          description :=
            jsOr variantProduct.description
              (jsOr parentProduct.description parentProduct.shortDescription)
          link := getProductUrl parentProduct urlTemplate
          imageLink := getPrimaryImageUrl images
          availability := getAvailability variantProduct.inStock
          condition :=
            .enumVal
              (mapCondition (getAttributeValue variantAttributes "condition"))
          shipping := some [getShippingInfo variantProduct country]
          price := price
          itemGroupId := some parentProduct.sku }
      let withStandard := applyStandard base mergedAttributes
      let withIdentifiers := applyIdentifiers withStandard identifiers
      let pa :=
        if additionalImages.isEmpty then withIdentifiers
        else { withIdentifiers with additionalImageLinks := some additionalImages }
      .ok
        (buildProductInput feedLabel language variantProduct.sku pa
          variantCategorized.2)

/-- A `sources` entry of a change item. -/
structure CommerceSource where
  locale : String
deriving DecidableEq, Repr

/-- A `links` entry of a change item. -/
structure ItemLink where
  type : String
  sku : String
deriving DecidableEq, Repr

/-- One change-notification item of `processors/aco/products.js`. -/
structure ChangeItem where
  sku : String
  operation : String
  sources : List CommerceSource
  links : List ItemLink
deriving DecidableEq, Repr

/-- `getVariantOfLink`: the first link of type `variantOf`, or null. -/
def getVariantOfLink (item : ChangeItem) : Option ItemLink :=
  item.links.find? (fun l => l.type == "variantOf")

/-- The result shape of `categorizeItems`. -/
structure CategorizedItems where
  simpleItems : List ChangeItem
  complexVariantItems : List ChangeItem
  complexParentSkus : List String
deriving DecidableEq, Repr

/-- The parent-SKU `Set` accumulated by the `categorizeItems` loop:
insertion-ordered, first occurrence kept. -/
def collectParentSkus (items : List ChangeItem) : List String :=
  items.foldl
    (fun acc item =>
      match getVariantOfLink item with
      | some l => if acc.contains l.sku then acc else acc ++ [l.sku]
      | none => acc)
    []

/-- `categorizeItems`: items with a `variantOf` link become variant
items and contribute their linked SKU to the parent set; the remaining
items are simple unless their own SKU is in the parent set. -/
def categorizeItems (items : List ChangeItem) : CategorizedItems :=
  let complexParentSkus := collectParentSkus items
  let simpleItems := items.filter (fun i => (getVariantOfLink i).isNone)
  let simpleItemsFiltered :=
    simpleItems.filter (fun i => !(complexParentSkus.contains i.sku))
  { simpleItems := simpleItemsFiltered
    complexVariantItems := items.filter (fun i => (getVariantOfLink i).isSome)
    complexParentSkus := complexParentSkus }

/-- The `\x7bparentProduct, variant\x7d` value of the variant data map. -/
structure VariantData where
  parentProduct : CommerceProduct
  variant : CommerceVariant
deriving DecidableEq, Repr

/-- `Map.get` on an association list with unique keys. -/
def mapLookup {α : Type} (m : List (String × α)) (k : String) : Option α :=
  (m.find? (fun e => e.1 == k)).map (fun e => e.2)

/-- `Map.set` on an association list: overwrite the existing entry or
append a new one. -/
def mapSet {α : Type} (m : List (String × α)) (k : String) (v : α) :
    List (String × α) :=
  if (m.find? (fun e => e.1 == k)).isSome then
    m.map (fun e => if e.1 == k then (k, v) else e)
  else m ++ [(k, v)]

/-- `fetchVariantData`: `parentMap` abstracts the union of the batched
`getProducts` responses keyed by SKU, `variantsOf` the `getVariants`
call (`.error` models a thrown fetch error, caught by the `try/catch`).
A parent SKU the catalog does not return is logged and skipped
(`continue`), as is a parent whose variants fetch throws; found variants
are keyed by their product SKU. -/
def fetchVariantData (parentMap : String → Option CommerceProduct)
    (variantsOf : String → Except String (List CommerceVariant))
    (parentSkus : List String) : List (String × VariantData) :=
  parentSkus.foldl
    (fun acc parentSku =>
      match parentMap parentSku with
      | none => acc
      | some parentProduct =>
          match variantsOf parentSku with
          | .error _ => acc
          | .ok variants =>
              variants.foldl
                (fun m v =>
                  mapSet m v.product.sku
                    { parentProduct := parentProduct, variant := v })
                acc)
    []

/-- `transformVariantItems`: an item whose SKU is missing from the
variant data map is logged and skipped (`continue`); per-source
transform errors are caught, logged and skipped.  `tv` abstracts the
call to `transformVariant` for one source. -/
def transformVariantItems
    (tv : CommerceProduct → CommerceVariant → CommerceSource →
      Except String ProductInput)
    (variantItems : List ChangeItem)
    (variantDataMap : List (String × VariantData)) : List ProductInput :=
  variantItems.foldl
    (fun acc item =>
      match mapLookup variantDataMap item.sku with
      | none => acc
      | some data =>
          item.sources.foldl
            (fun acc2 source =>
              match tv data.parentProduct data.variant source with
              | .ok p => acc2 ++ [p]
              | .error _ => acc2)
            acc)
    []

/-- `transformSimpleItems`: same skip/catch discipline over the simple
product map.  `tp` abstracts the call to `transformProduct` for one
source. -/
def transformSimpleItems
    (tp : CommerceProduct → CommerceSource → Except String ProductInput)
    (simpleItems : List ChangeItem)
    (productMap : String → Option CommerceProduct) : List ProductInput :=
  simpleItems.foldl
    (fun acc item =>
      match productMap item.sku with
      | none => acc
      | some product =>
          item.sources.foldl
            (fun acc2 source =>
              match tp product source with
              | .ok p => acc2 ++ [p]
              | .error _ => acc2)
            acc)
    []

/-- `fetchAndTransformProducts`: categorize, fetch variant data for the
collected parent SKUs, transform variant and simple items, concatenate
(variants first). -/
def fetchAndTransformProducts
    (tv : CommerceProduct → CommerceVariant → CommerceSource →
      Except String ProductInput)
    (tp : CommerceProduct → CommerceSource → Except String ProductInput)
    (parentMap : String → Option CommerceProduct)
    (variantsOf : String → Except String (List CommerceVariant))
    (simpleProductMap : String → Option CommerceProduct)
    (items : List ChangeItem) : List ProductInput :=
  let c := categorizeItems items
  let variantDataMap := fetchVariantData parentMap variantsOf c.complexParentSkus
  let transformedVariants :=
    transformVariantItems tv c.complexVariantItems variantDataMap
  let transformedSimple :=
    transformSimpleItems tp c.simpleItems simpleProductMap
  transformedVariants ++ transformedSimple

/-- `prepareItemsToDelete`: drop items whose SKU is declared as a parent
by some item of the batch, flatten the rest per source. -/
def prepareItemsToDelete (items : List ChangeItem) :
    List (String × CommerceSource) :=
  let parentSkus := collectParentSkus items
  (items.filter (fun i => !(parentSkus.contains i.sku))).foldl
    (fun acc item => acc ++ item.sources.map (fun s => (item.sku, s)))
    []

/-- The accumulator of `groupByOperation`. -/
structure OperationGroups where
  create : List ChangeItem
  update : List ChangeItem
  delete : List ChangeItem
deriving DecidableEq, Repr

/-- `groupByOperation` (`actions/utils.js`): push each item onto the
bucket named by its `operation` field; items whose operation is not one
of the three bucket keys are dropped. -/
def groupByOperation (items : List ChangeItem) : OperationGroups :=
  items.foldl
    (fun acc item =>
      if item.operation == "create" then
        { acc with create := acc.create ++ [item] }
      else if item.operation == "update" then
        { acc with update := acc.update ++ [item] }
      else if item.operation == "delete" then
        { acc with delete := acc.delete ++ [item] }
      else acc)
    { create := [], update := [], delete := [] }

/-- One dispatched call of `processProductEvent`. -/
inductive DispatchCall where
  | insert (products : List ProductInput)
  | update (products : List ProductInput)
  | delete (items : List (String × CommerceSource))
deriving DecidableEq, Repr

/-- The kind tag of a dispatch call. -/
def dispatchKind : DispatchCall → String
  | .insert _ => "insert"
  | .update _ => "update"
  | .delete _ => "delete"

/-- `processProductEvent`: group by operation; for non-empty create and
update groups fetch and transform, dispatching an upsert only when the
transformed list is non-empty; for a non-empty delete group dispatch the
prepared delete items when non-empty.  The returned list is the sequence
of calls made to the Google client. -/
def processProductEvent
    (tv : CommerceProduct → CommerceVariant → CommerceSource →
      Except String ProductInput)
    (tp : CommerceProduct → CommerceSource → Except String ProductInput)
    (parentMap : String → Option CommerceProduct)
    (variantsOf : String → Except String (List CommerceVariant))
    (simpleProductMap : String → Option CommerceProduct)
    (items : List ChangeItem) : List DispatchCall :=
  let g := groupByOperation items
  let insertCalls :=
    if g.create.isEmpty then []
    else
      let ps :=
        fetchAndTransformProducts tv tp parentMap variantsOf simpleProductMap
          g.create
      if ps.isEmpty then [] else [DispatchCall.insert ps]
  let updateCalls :=
    if g.update.isEmpty then []
    else
      let ps :=
        fetchAndTransformProducts tv tp parentMap variantsOf simpleProductMap
          g.update
      if ps.isEmpty then [] else [DispatchCall.update ps]
  let deleteCalls :=
    if g.delete.isEmpty then []
    else
      let ds := prepareItemsToDelete g.delete
      if ds.isEmpty then [] else [DispatchCall.delete ds]
  insertCalls ++ updateCalls ++ deleteCalls

/-- The loaded attribute mapping configuration: `fieldMappings` maps
Google field names to custom attribute names; `valueMappings` maps, per
enum field, Google enum values to custom values.  JavaScript objects are
embedded as association lists with unique keys, in insertion order
(`Object.entries` order). -/
structure AttributeMapping where
  fieldMappings : List (String × String)
  valueMappings : List (String × List (String × String))
deriving DecidableEq, Repr

/-- `getGoogleFieldName` (attribute-mapping revision of
`transformers/product.js`): first field-mapping entry whose custom
attribute name equals the input, else the input unchanged. -/
def getGoogleFieldName (am : AttributeMapping) (customAttrName : String) :
    String :=
  match am.fieldMappings.find? (fun e => e.2 == customAttrName) with
  | some e => e.1
  | none => customAttrName

/-- `getCustomAttrName`: `fieldMappings[field] || field` — the mapped
custom attribute name, falling back to the field name when the entry is
missing or falsy. -/
def getCustomAttrName (am : AttributeMapping) (field : String) : String :=
  match am.fieldMappings.find? (fun e => e.1 == field) with
  | some e => if e.2 == "" then field else e.2
  | none => field

/-- `mapEnumValue`: null for a falsy input; else the first Google value
of the field's value map whose custom value equals the input, falling
back to the lowercased input. -/
def mapEnumValue (am : AttributeMapping) (customValue : Option String)
    (field : String) : Option String :=
  match customValue with
  | none => none
  | some cv =>
      if cv == "" then none
      else
        let fieldValueMap :=
          match am.valueMappings.find? (fun e => e.1 == field) with
          | some e => e.2
          | none => []
        match fieldValueMap.find? (fun e => e.2 == cv) with
        | some e => some e.1
        | none => some (jsToLower cv)

/-- Modelled from the spec: no forward value lookup (`valueToSource`)
exists under the sources in `src`; spec section 4.2 defines it as the
forward lookup of the destination value in the field's value map, with
the destination value unchanged as fallback. -/
def valueToSource (am : AttributeMapping) (destinationValue field : String) :
    String :=
  let fieldValueMap :=
    match am.valueMappings.find? (fun e => e.1 == field) with
    | some e => e.2
    | none => []
  match fieldValueMap.find? (fun e => e.1 == destinationValue) with
  | some e => e.2
  | none => destinationValue

/-- `hasValidIdentifiers` (attribute-mapping revision): gtin, or brand
and mpn together. -/
def hasValidIdentifiers (s : StandardFields) : Bool :=
  s.gtins.isSome || (s.brand.isSome && s.mpn.isSome)

namespace Mapped

/-- One step of the attribute-mapping revision of
`categorizeAttributes`: the attribute name goes through
`getGoogleFieldName` before the standard-field check, and the three enum
fields go through `mapEnumValue`.  For a truthy value `mapEnumValue`
always yields a string (mapped Google value or lowercased input). -/
def categorizeStep (am : AttributeMapping)
    (acc : StandardFields × List CommerceAttribute)
    (attr : CommerceAttribute) : StandardFields × List CommerceAttribute :=
  if attr.value == "" then acc
  else
    let googleField := getGoogleFieldName am attr.name
    if GOOGLE_STANDARD_FIELDS.contains googleField then
      if googleField == "condition" || googleField == "gender" ||
          googleField == "ageGroup" then
        (setStandardField acc.1 googleField
          ((mapEnumValue am (some attr.value) googleField).getD attr.value),
          acc.2)
      else (setStandardField acc.1 googleField attr.value, acc.2)
    else (acc.1, acc.2 ++ [attr])

/-- `categorizeAttributes`, attribute-mapping revision. -/
def categorizeAttributes (am : AttributeMapping)
    (attributes : List CommerceAttribute) :
    StandardFields × List CommerceAttribute :=
  attributes.foldl (categorizeStep am) ({}, [])

/-- `getShippingInfo`, attribute-mapping revision: return null (omit
shipping) when there is no truthy `shippingPrice` attribute; otherwise
one entry whose currency falls back from the product price to `USD`. -/
def getShippingInfo (product : CommerceProduct) (country : String) :
    Option ShippingEntry :=
  let shippingMethod := getAttributeValue product.attributes "shippingMethod"
  let shippingPrice := getAttributeValue product.attributes "shippingPrice"
  match shippingPrice with
  | none => none
  | some sp =>
      some
        { price :=
            { amountMicros := toMicrosOfString sp
              currencyCode :=
                match transformPrice product with
                | some pr => if pr.currencyCode == "" then "USD" else pr.currencyCode
                | none => "USD" }
          country := country
          service := shippingMethod.getD "standard" }

/-- `transformProduct`, attribute-mapping revision: price check, mapped
categorization, condition resolved through the configured attribute name
and value map, shipping included only when `getShippingInfo` returns an
entry, `identifierExists = false` added when `hasValidIdentifiers`
fails. -/
def transformProduct (am : AttributeMapping) (feedLabel : String)
    (product : CommerceProduct) (language country urlTemplate : String) :
    Except String ProductInput :=
  let attributes := product.attributes
  let images := product.images
  match transformPrice product with
  | none => .error ("Product " ++ product.sku ++ " does not have a price")
  | some price =>
      let categorized := categorizeAttributes am attributes
      let standard := categorized.1
      let custom := categorized.2
      let additionalImages := getAdditionalImageUrls images
      let conditionAttrName := getCustomAttrName am "condition"
      let rawCondition := getAttributeValue attributes conditionAttrName
      let mappedCondition := mapEnumValue am rawCondition "condition"
      let base : ProductAttributes :=
        { title := product.name
          description := jsOr product.description product.shortDescription
          link := getProductUrl product urlTemplate
          imageLink := getPrimaryImageUrl images
          availability := getAvailability product.inStock
          condition := .enumVal (mapCondition mappedCondition)
          price := price }
      let withStandard := applyStandard base standard
      let withShipping :=
        match getShippingInfo product country with
        | some si => { withStandard with shipping := some [si] }
        | none => withStandard
      let withIdentifiers :=
        if hasValidIdentifiers standard then withShipping
        else { withShipping with identifierExists := some false }
      let pa :=
        if additionalImages.isEmpty then withIdentifiers
        else { withIdentifiers with additionalImageLinks := some additionalImages }
      .ok (buildProductInput feedLabel language product.sku pa custom)

end Mapped

/-- `true` when the transform threw. -/
def isThrown (e : Except String ProductInput) : Bool :=
  match e with
  | .error _ => true
  | .ok _ => false

/-- The claim-side resolvable-price predicate, written from the spec
wording: a direct final price or, failing that, a price-range minimum
final price, whose amount value is non-null and whose currency is
non-empty (the qualifier applies to the chosen amount, which is how
`transformPrice` validates the branch it picked). -/
def specResolvablePrice (p : CommerceProduct) : Bool :=
  match p.priceFinalAmount with
  | some m => m.value.isSome && !(m.currency == "")
  | none =>
      match p.priceRangeMinimumFinalAmount with
      | some m => m.value.isSome && !(m.currency == "")
      | none => false

/-- A product whose only identifier-relevant attribute is a direct
`mpn`: no gtin, no brand. -/
def mpnOnlyProduct : CommerceProduct :=
  { sku := "SKU-MPN", urlKey := "sku-mpn", name := "N", description := "D",
    shortDescription := "", inStock := true,
    priceFinalAmount := some { value := some (mkRat 10 1), currency := "USD" },
    priceRangeMinimumFinalAmount := none,
    attributes := [{ name := "mpn", value := "X123" }],
    images := [] }

/-- A complex parent record priced only through its price range. -/
def parentP : CommerceProduct :=
  { sku := "P1", urlKey := "p1", name := "Parent", description := "pd",
    shortDescription := "", inStock := true,
    priceFinalAmount := none,
    priceRangeMinimumFinalAmount :=
      some { value := some (mkRat 20 1), currency := "USD" },
    attributes := [], images := [] }

/-- A variant of `parentP` carrying an `itemGroupId` attribute of its
own. -/
def overridingVariant : CommerceVariant :=
  { selections := []
    product :=
      { sku := "V1", urlKey := "v1", name := "Var", description := "",
        shortDescription := "", inStock := true,
        priceFinalAmount :=
          some { value := some (mkRat 10 1), currency := "USD" },
        priceRangeMinimumFinalAmount := none,
        attributes := [{ name := "itemGroupId", value := "OTHER" }],
        images := [] } }

/-- A simple product with a negative final price value. -/
def negPriceProduct : CommerceProduct :=
  { sku := "NEG", urlKey := "neg", name := "N", description := "d",
    shortDescription := "", inStock := true,
    priceFinalAmount :=
      some { value := some (mkRat (-1) 1), currency := "USD" },
    priceRangeMinimumFinalAmount := none,
    attributes := [], images := [] }

/-- A record with no price information at all. -/
def nopriceProduct : CommerceProduct :=
  { sku := "NP", urlKey := "np", name := "N", description := "d",
    shortDescription := "", inStock := true,
    priceFinalAmount := none, priceRangeMinimumFinalAmount := none,
    attributes := [], images := [] }

/-- A product whose condition attribute holds a value outside the
condition map. -/
def condProduct : CommerceProduct :=
  { sku := "C1", urlKey := "c1", name := "N", description := "d",
    shortDescription := "", inStock := true,
    priceFinalAmount := some { value := some (mkRat 10 1), currency := "USD" },
    priceRangeMinimumFinalAmount := none,
    attributes := [{ name := "condition", value := "LikeNew" }],
    images := [] }

/-- A variant change item declaring parent `P`. -/
def variantItemVP : ChangeItem :=
  { sku := "V1", operation := "create",
    sources := [{ locale := "en-US" }],
    links := [{ type := "variantOf", sku := "P" }] }

/-- A simple change item. -/
def simpleItemS1 : ChangeItem :=
  { sku := "S1", operation := "create",
    sources := [{ locale := "en-US" }], links := [] }

/-- A change item that is itself declared as a parent by `variantItemVP`
and carries no `variantOf` link. -/
def parentItemP : ChangeItem :=
  { sku := "P", operation := "create",
    sources := [{ locale := "en-US" }], links := [] }

/-- A change item with an unrecognized operation. -/
def unknownOpItem : ChangeItem :=
  { sku := "U", operation := "unknown",
    sources := [{ locale := "en-US" }], links := [] }

/-- A well-priced simple product for the dispatch scenarios. -/
def goodSimple : CommerceProduct :=
  { sku := "S1", urlKey := "s1", name := "Simple", description := "d",
    shortDescription := "", inStock := true,
    priceFinalAmount := some { value := some (mkRat 10 1), currency := "USD" },
    priceRangeMinimumFinalAmount := none,
    attributes := [], images := [] }

/-- A variant transform oracle that always fails (never reached in the
scenarios using it). -/
def tvNull : CommerceProduct → CommerceVariant → CommerceSource →
    Except String ProductInput :=
  fun _ _ _ => .error "unused"

/-- A simple transform oracle wired to the transformer. -/
def tpFeed : CommerceProduct → CommerceSource → Except String ProductInput :=
  fun p _ => transformProduct "feed" p "en" "US" "u"

/-- A catalog oracle returning no parent products (the parent fetch
comes back empty). -/
def pmNone : String → Option CommerceProduct := fun _ => none

/-- A variants oracle returning no variants. -/
def voEmpty : String → Except String (List CommerceVariant) :=
  fun _ => .ok []

/-- A simple-product oracle knowing only `S1`. -/
def smS1 : String → Option CommerceProduct :=
  fun s => if s == "S1" then some goodSimple else none

/-- The batch of the missing-parent scenario: one variant item whose
parent the catalog does not return, plus one healthy simple item. -/
def missingParentBatch : List ChangeItem := [variantItemVP, simpleItemS1]

/-- The currency fallback of the attribute-mapping revision of
`getShippingInfo`: the transformed price currency, or `USD`. -/
def shippingCurrencyFallback (p : CommerceProduct) : String :=
  match transformPrice p with
  | some pr => if pr.currencyCode == "" then "USD" else pr.currencyCode
  | none => "USD"

/-- A product carrying a `shippingPrice` attribute. -/
def shipProduct : CommerceProduct :=
  { sku := "SH", urlKey := "sh", name := "n", description := "d",
    shortDescription := "", inStock := true,
    priceFinalAmount := some { value := some (mkRat 10 1), currency := "USD" },
    priceRangeMinimumFinalAmount := none,
    attributes := [{ name := "shippingPrice", value := "5.99" }],
    images := [] }

/-- An empty attribute mapping configuration. -/
def amEmpty : AttributeMapping := { fieldMappings := [], valueMappings := [] }

/-- A degenerate but well-formed field mapping configuration: unique
keys, one entry with an empty custom name and one entry keyed by the
empty field name. -/
def amDegenerate : AttributeMapping :=
  { fieldMappings := [("a", ""), ("", "")], valueMappings := [] }

/-- A small realistic mapping configuration. -/
def amSample : AttributeMapping :=
  { fieldMappings := [("mpn", "manufacturer_code")]
    valueMappings := [("condition", [("new", "Brand New")])] }

/-- The expected transform output for `shipProduct` under `amEmpty`. -/
def shipOut : ProductInput :=
  { contentLanguage := "en", feedLabel := "f", offerId := "SH",
    productAttributes :=
      { title := "n", description := "d", link := "u", imageLink := none,
        availability := .IN_STOCK, condition := .enumVal .NEW,
        shipping :=
          some
            [{ price :=
                 { amountMicros := toMicrosOfString "5.99",
                   currencyCode := "USD" }
               country := "US", service := "standard" }]
        price := { amountMicros := toMicros (mkRat 10 1), currencyCode := "USD" }
        identifierExists := some false }
    customAttributes := some [{ name := "shippingPrice", value := "5.99" }] }

/-- A variant of `parentP` with no attributes of its own. -/
def cleanVariant : CommerceVariant :=
  { selections := []
    product :=
      { sku := "V2", urlKey := "v2", name := "n", description := "",
        shortDescription := "", inStock := true,
        priceFinalAmount :=
          some { value := some (mkRat 15 1), currency := "USD" },
        priceRangeMinimumFinalAmount := none,
        attributes := [], images := [] } }

/-- A throwaway product input used as the default of `okOr`. -/
def defaultProductInput : ProductInput :=
  { contentLanguage := "", feedLabel := "", offerId := "",
    productAttributes :=
      { title := "", description := "", link := "", imageLink := none,
        availability := .OUT_OF_STOCK, condition := .enumVal .NEW,
        price := { amountMicros := 0, currencyCode := "" } }
    customAttributes := none }

/-- Extract the success value of a transform result. -/
def okOr (r : Except String ProductInput) (d : ProductInput) : ProductInput :=
  match r with
  | .ok o => o
  | .error _ => d

/-- The transform output for `cleanVariant` under `parentP`. -/
def cleanOut : ProductInput :=
  okOr (transformVariant "feed" parentP cleanVariant "en" "US" "u")
    defaultProductInput

/-- The batch in which `parentItemP` is declared a parent by
`variantItemVP` while carrying no link itself. -/
def parentInBatch : List ChangeItem := [variantItemVP, parentItemP]

/-- A batch consisting only of an unrecognized operation. -/
def unknownOpBatch : List ChangeItem := [unknownOpItem]

/-- The transform output for the attribute-free `goodSimple`. -/
def goodSimpleOut : ProductInput :=
  okOr (transformProduct "feed" goodSimple "en" "US" "u") defaultProductInput

theorem transformPrice_isSome (p : CommerceProduct) :
    (transformPrice p).isSome = specResolvablePrice p := by
  unfold transformPrice specResolvablePrice
  cases hf : p.priceFinalAmount with
  | some m =>
      cases hv : m.value with
      | some v => by_cases hc : m.currency == "" <;> simp [hv, hc]
      | none => simp [hv]
  | none =>
      cases hr : p.priceRangeMinimumFinalAmount with
      | some m =>
          cases hv : m.value with
          | some v => by_cases hc : m.currency == "" <;> simp [hv, hc]
          | none => simp [hv]
      | none => simp

/-- Claim C1: `transformProduct` throws exactly when the record has no
resolvable price (direct final price, else price-range minimum final
price, with a non-null amount value and a non-empty currency); and
`transformVariant` checks the same precondition against the variant's
own record, for any parent record. -/
theorem transform_throws_iff_unresolvable_price :
    ∀ (feedLabel : String) (product : CommerceProduct)
      (language country urlTemplate : String)
      (parent : CommerceProduct) (variant : CommerceVariant),
      isThrown (transformProduct feedLabel product language country
          urlTemplate) = !(specResolvablePrice product)
      ∧ isThrown (transformVariant feedLabel parent variant language country
          urlTemplate) = !(specResolvablePrice variant.product) := by
  intro fl p lang country ut parent v
  constructor
  · rw [← transformPrice_isSome]
    unfold transformProduct
    cases h : transformPrice p <;> simp [h, isThrown]
  · rw [← transformPrice_isSome]
    unfold transformVariant
    cases h : transformPrice v.product <;> simp [h, isThrown]

/-- Claim C2 (divergence witness): a record carrying a direct `mpn`
attribute but no gtin and no brand is transformed with no
`identifierExists` flag at all, although it carries neither a gtin nor
brand plus mpn; `getIdentifiers` short-circuits on `mpn` alone, against
its own documented policy `gtin, mpn+brand, or identifierExists=false`. -/
theorem identifier_policy_divergence :
    (transformProduct "feed" mpnOnlyProduct "en" "US" "u").map
        (fun o => (o.productAttributes.gtins, o.productAttributes.brand,
          o.productAttributes.mpn, o.productAttributes.identifierExists))
      = .ok (none, none, some "X123", none) := by
  rfl

theorem setStandardField_itemGroupId (s : StandardFields) (n v : String)
    (hn : n ≠ "itemGroupId") :
    (setStandardField s n v).itemGroupId = s.itemGroupId := by
  delta setStandardField
  by_cases h1 : (n == "gtin") = true
  · rw [if_pos h1]
  · rw [if_neg h1]
    by_cases h2 : (n == "mpn") = true
    · rw [if_pos h2]
    · rw [if_neg h2]
      by_cases h3 : (n == "brand") = true
      · rw [if_pos h3]
      · rw [if_neg h3]
        by_cases h4 : (n == "condition") = true
        · rw [if_pos h4]
        · rw [if_neg h4]
          by_cases h5 : (n == "color") = true
          · rw [if_pos h5]
          · rw [if_neg h5]
            by_cases h6 : (n == "size") = true
            · rw [if_pos h6]
            · rw [if_neg h6]
              by_cases h7 : (n == "gender") = true
              · rw [if_pos h7]
              · rw [if_neg h7]
                by_cases h8 : (n == "ageGroup") = true
                · rw [if_pos h8]
                · rw [if_neg h8]
                  by_cases h9 : (n == "material") = true
                  · rw [if_pos h9]
                  · rw [if_neg h9]
                    by_cases h10 : (n == "pattern") = true
                    · rw [if_pos h10]
                    · rw [if_neg h10]
                      by_cases h11 : (n == "googleProductCategory") = true
                      · rw [if_pos h11]
                      · rw [if_neg h11]
                        rw [if_neg
                          (show ¬((n == "itemGroupId") = true) by
                            simpa using hn)]

theorem setStandardField_condition (s : StandardFields) (n v : String)
    (hn : n ≠ "condition") :
    (setStandardField s n v).condition = s.condition := by
  delta setStandardField
  by_cases h1 : (n == "gtin") = true
  · rw [if_pos h1]
  · rw [if_neg h1]
    by_cases h2 : (n == "mpn") = true
    · rw [if_pos h2]
    · rw [if_neg h2]
      by_cases h3 : (n == "brand") = true
      · rw [if_pos h3]
      · rw [if_neg h3]
        rw [if_neg (show ¬((n == "condition") = true) by simpa using hn)]
        by_cases h5 : (n == "color") = true
        · rw [if_pos h5]
        · rw [if_neg h5]
          by_cases h6 : (n == "size") = true
          · rw [if_pos h6]
          · rw [if_neg h6]
            by_cases h7 : (n == "gender") = true
            · rw [if_pos h7]
            · rw [if_neg h7]
              by_cases h8 : (n == "ageGroup") = true
              · rw [if_pos h8]
              · rw [if_neg h8]
                by_cases h9 : (n == "material") = true
                · rw [if_pos h9]
                · rw [if_neg h9]
                  by_cases h10 : (n == "pattern") = true
                  · rw [if_pos h10]
                  · rw [if_neg h10]
                    by_cases h11 : (n == "googleProductCategory") = true
                    · rw [if_pos h11]
                    · rw [if_neg h11]
                      by_cases h12 : (n == "itemGroupId") = true
                      · rw [if_pos h12]
                      · rw [if_neg h12]

theorem categorize_fold_itemGroupId (attrs : List CommerceAttribute) :
    ∀ acc : StandardFields × List CommerceAttribute,
    (∀ a ∈ attrs, a.name = "itemGroupId" → a.value = "") →
    (attrs.foldl categorizeStep acc).1.itemGroupId = acc.1.itemGroupId := by
  induction attrs with
  | nil => intro acc h; rfl
  | cons a rest ih =>
      intro acc h
      have hstep : (categorizeStep acc a).1.itemGroupId = acc.1.itemGroupId := by
        unfold categorizeStep
        split_ifs with hv hc
        · rfl
        · refine setStandardField_itemGroupId _ _ _ (fun hn => ?hx)
          have hveq := h a (List.mem_cons_self a rest) hn
          rw [hveq] at hv
          simp at hv
        · rfl
      rw [List.foldl_cons, ih _ (fun b hb => h b (List.mem_cons_of_mem _ hb)),
        hstep]

theorem getAttributeValue_eq_none (attrs : List CommerceAttribute) (n : String)
    (h : ∀ a ∈ attrs, a.name = n → a.value = "") :
    getAttributeValue attrs n = none := by
  unfold getAttributeValue
  cases hf : attrs.find? (fun a => a.name == n) with
  | none => rfl
  | some a =>
      have hp := List.find?_some hf
      have hm := List.mem_of_find?_eq_some hf
      have hveq : a.value = "" := h a hm (by simpa using hp)
      simp [hveq]

theorem transformVariant_ok_proj (fl : String) (parent : CommerceProduct)
    (v : CommerceVariant) (lang country ut : String) (out : ProductInput)
    (hok : transformVariant fl parent v lang country ut = .ok out) :
    out.productAttributes.link = getProductUrl parent ut
    ∧ out.productAttributes.itemGroupId =
        (match (mergeStandard (categorizeAttributes parent.attributes).1
            (categorizeAttributes v.product.attributes).1).itemGroupId with
         | some x => some x
         | none => some parent.sku) := by
  simp only [transformVariant] at hok
  cases hp : transformPrice v.product with
  | none => rw [hp] at hok; simp at hok
  | some price =>
      rw [hp] at hok
      simp only [Except.ok.injEq] at hok
      subst hok
      constructor
      · simp [buildProductInput, applyIdentifiers, applyStandard,
          apply_ite (fun pa : ProductAttributes => pa.link)]
      · simp [buildProductInput, applyIdentifiers, applyStandard,
          apply_ite (fun pa : ProductAttributes => pa.itemGroupId)]

/-- Claim C3 (counterexample): a variant carrying an `itemGroupId`
attribute of its own is transformed with that attribute value as
`itemGroupId`, not the parent SKU — the standard-field spread after the
computed fields overrides it. -/
theorem variant_itemGroupId_counterexample :
    (transformVariant "feed" parentP overridingVariant "en" "US" "u").map
        (fun o => o.productAttributes.itemGroupId) = .ok (some "OTHER")
    ∧ parentP.sku = "P1"
    ∧ (some "OTHER" : Option String) ≠ some "P1" :=
  ⟨rfl, rfl, by decide⟩

/-- Claim C3 (amended): for every successfully transformed variant the
link equals the parent URL built from the parent record and template
(hence identical across all variants of one parent); and the
`itemGroupId` equals the parent SKU provided neither the parent nor the
variant record carries a truthy `itemGroupId` attribute, which would
otherwise override it. -/
theorem variant_grouping_amended (feedLabel : String)
    (parent : CommerceProduct) (variant : CommerceVariant)
    (language country urlTemplate : String) (out : ProductInput)
    (hok : transformVariant feedLabel parent variant language country
        urlTemplate = .ok out) :
    out.productAttributes.link = getProductUrl parent urlTemplate
    ∧ (∀ v2 out2,
        transformVariant feedLabel parent v2 language country urlTemplate
            = .ok out2 →
        out2.productAttributes.link = out.productAttributes.link)
    ∧ ((∀ a ∈ parent.attributes, a.name = "itemGroupId" → a.value = "") →
       (∀ a ∈ variant.product.attributes,
           a.name = "itemGroupId" → a.value = "") →
       out.productAttributes.itemGroupId = some parent.sku) := by
  obtain ⟨hlink, hig⟩ := transformVariant_ok_proj _ _ _ _ _ _ _ hok
  refine ⟨hlink, ?link2, ?ig⟩
  · intro v2 out2 hok2
    obtain ⟨hlink2, _⟩ := transformVariant_ok_proj _ _ _ _ _ _ _ hok2
    rw [hlink2, hlink]
  · intro hpar hvar
    have hp2 : (categorizeAttributes parent.attributes).1.itemGroupId = none :=
      categorize_fold_itemGroupId parent.attributes ({}, []) hpar
    have hv2 :
        (categorizeAttributes variant.product.attributes).1.itemGroupId
          = none :=
      categorize_fold_itemGroupId variant.product.attributes ({}, []) hvar
    rw [hig]
    simp [mergeStandard, hp2, hv2]

/-- Claim C3 (witness): the amended theorem applied to `parentP` and the
attribute-free `cleanVariant`. -/
theorem variant_grouping_amended_witness :
    cleanOut.productAttributes.link = getProductUrl parentP "u"
    ∧ cleanOut.productAttributes.itemGroupId = some parentP.sku :=
  ⟨(variant_grouping_amended "feed" parentP cleanVariant "en" "US" "u"
      cleanOut rfl).1,
   (variant_grouping_amended "feed" parentP cleanVariant "en" "US" "u"
      cleanOut rfl).2.2 (by simp [parentP]) (by simp [cleanVariant])⟩

theorem collectParentSkus_mono (items : List ChangeItem) :
    ∀ (acc : List String) (s : String), s ∈ acc →
      s ∈ items.foldl
        (fun acc item =>
          match getVariantOfLink item with
          | some l => if acc.contains l.sku then acc else acc ++ [l.sku]
          | none => acc)
        acc := by
  induction items with
  | nil => intro acc s hs; exact hs
  | cons a rest ih =>
      intro acc s hs
      rw [List.foldl_cons]
      apply ih
      cases h : getVariantOfLink a with
      | none => simpa [h] using hs
      | some l =>
          simp only [h]
          split
          · exact hs
          · exact List.mem_append_left _ hs

theorem mem_collectParentSkus (items : List ChangeItem) :
    ∀ (acc : List String) (i : ChangeItem) (l : ItemLink), i ∈ items →
      getVariantOfLink i = some l →
      l.sku ∈ items.foldl
        (fun acc item =>
          match getVariantOfLink item with
          | some l => if acc.contains l.sku then acc else acc ++ [l.sku]
          | none => acc)
        acc := by
  induction items with
  | nil => intro acc i l hi; exact absurd hi (List.not_mem_nil i)
  | cons a rest ih =>
      intro acc i l hi hl
      rw [List.foldl_cons]
      rcases List.mem_cons.mp hi with heq | hmem
      · subst heq
        apply collectParentSkus_mono
        simp only [hl]
        split
        · next hc => simpa using hc
        · exact List.mem_append_right _ (List.mem_singleton.mpr rfl)
      · exact ih _ i l hmem hl

/-- Claim C4: the classifier simpleItems list is disjoint from the
parent SKU set; an item with no variantOf link whose own SKU is declared
as a parent appears in neither simpleItems nor complexVariantItems; and
every item with a variantOf link lands in complexVariantItems with the
linked SKU in the parent set. -/
theorem classifier_disjointness (items : List ChangeItem) :
    (∀ i ∈ (categorizeItems items).simpleItems,
       i.sku ∉ (categorizeItems items).complexParentSkus)
    ∧ (∀ i ∈ items, getVariantOfLink i = none →
        i.sku ∈ (categorizeItems items).complexParentSkus →
        i ∉ (categorizeItems items).simpleItems
        ∧ i ∉ (categorizeItems items).complexVariantItems)
    ∧ (∀ i ∈ items, ∀ l, getVariantOfLink i = some l →
        i ∈ (categorizeItems items).complexVariantItems
        ∧ l.sku ∈ (categorizeItems items).complexParentSkus) := by
  have hsi : (categorizeItems items).simpleItems
      = (items.filter (fun i => (getVariantOfLink i).isNone)).filter
          (fun i => !((collectParentSkus items).contains i.sku)) := rfl
  have hcv : (categorizeItems items).complexVariantItems
      = items.filter (fun i => (getVariantOfLink i).isSome) := rfl
  have hps : (categorizeItems items).complexParentSkus
      = collectParentSkus items := rfl
  refine ⟨?disj, ?parent, ?variant⟩
  case disj =>
    intro i hi
    rw [hsi] at hi
    rw [hps]
    have h2 := (List.mem_filter.mp hi).2
    simpa using h2
  case parent =>
    intro i hi hnone hsku
    rw [hps] at hsku
    constructor
    · intro hmem
      rw [hsi] at hmem
      have hf := (List.mem_filter.mp hmem).2
      simp at hf
      exact hf hsku
    · intro hmem
      rw [hcv] at hmem
      have hf := (List.mem_filter.mp hmem).2
      rw [hnone] at hf
      simp at hf
  case variant =>
    intro i hi l hl
    constructor
    · rw [hcv]
      exact List.mem_filter.mpr ⟨hi, by rw [hl]; rfl⟩
    · rw [hps]
      exact mem_collectParentSkus items [] i l hi hl

/-- Claim C4 (witness): in a batch where `variantItemVP` declares `P` as
parent, the linkless item with SKU `P` lands in neither output list. -/
theorem classifier_disjointness_witness :
    parentItemP ∉ (categorizeItems parentInBatch).simpleItems
    ∧ parentItemP ∉ (categorizeItems parentInBatch).complexVariantItems :=
  (classifier_disjointness parentInBatch).2.1 parentItemP (by decide)
    (by decide) (by decide)

/-- Claim C5 (counterexample): a record with a negative final price
value transforms successfully into a negative `amountMicros`; a negative
price does not cause a transform failure. -/
theorem negative_price_counterexample :
    (transformProduct "f" negPriceProduct "en" "US" "u").map
        (fun o => o.productAttributes.price.amountMicros)
      = .ok (-1000000)
    ∧ (-1000000 : Int) < 0 := by
  constructor
  · have h1 : (transformProduct "f" negPriceProduct "en" "US" "u").map
        (fun o => o.productAttributes.price.amountMicros)
        = .ok (toMicros (mkRat (-1) 1)) := rfl
    rw [h1]
    have h2 : toMicros (mkRat (-1) 1) = -1000000 := by
      unfold toMicros; rw [round_eq]; norm_num [Rat.mkRat_eq_div]
    rw [h2]
  · norm_num

/-- Claim C5 (amended): `toMicros(29.99) = 29990000` and
`toMicros(0) = 0`, and a record whose price does not resolve makes
`transformProduct` throw; a negative price, however, flows through
unchecked (see the counterexample). -/
theorem price_conversion_amended :
    toMicros (29.99 : Rat) = 29990000
    ∧ toMicros 0 = 0
    ∧ ∀ (fl : String) (p : CommerceProduct) (lang country ut : String),
        transformPrice p = none →
        transformProduct fl p lang country ut
          = .error ("Product " ++ p.sku ++ " does not have a price") := by
  refine ⟨?a, ?b, ?c⟩
  · unfold toMicros; rw [round_eq]; norm_num
  · unfold toMicros; rw [round_eq]; norm_num
  · intro fl p lang country ut h
    unfold transformProduct
    rw [h]

/-- Claim C5 (witness): the amended theorem applied to the priceless
record. -/
theorem price_conversion_amended_witness :
    transformPrice nopriceProduct = none
    ∧ transformProduct "f" nopriceProduct "en" "US" "u"
        = .error ("Product " ++ nopriceProduct.sku ++ " does not have a price") :=
  ⟨rfl, price_conversion_amended.2.2 "f" nopriceProduct "en" "US" "u" rfl⟩

/-- Claim C6 (amended): a variant item whose SKU has no entry in the
variant data map is skipped and contributes nothing — the transform of
the remaining items proceeds; likewise a parent SKU the catalog fetch
does not return is skipped by `fetchVariantData`.  Neither case throws;
both are per-item log-and-continue paths. -/
theorem variant_missing_data_nonfatal :
    (∀ (tv : CommerceProduct → CommerceVariant → CommerceSource →
          Except String ProductInput)
        (i : ChangeItem) (rest : List ChangeItem)
        (m : List (String × VariantData)),
        mapLookup m i.sku = none →
        transformVariantItems tv (i :: rest) m
          = transformVariantItems tv rest m)
    ∧ (∀ (pm : String → Option CommerceProduct)
        (vo : String → Except String (List CommerceVariant))
        (ps : String) (rest : List String),
        pm ps = none →
        fetchVariantData pm vo (ps :: rest) = fetchVariantData pm vo rest) := by
  constructor
  · intro tv i rest m h
    unfold transformVariantItems
    rw [List.foldl_cons]
    simp only [h]
  · intro pm vo ps rest h
    unfold fetchVariantData
    rw [List.foldl_cons]
    simp only [h]

/-- Claim C6 (witness): the amended theorem applied to the empty variant
data map and the variant item `variantItemVP`. -/
theorem variant_missing_data_nonfatal_witness :
    mapLookup ([] : List (String × VariantData)) variantItemVP.sku = none
    ∧ transformVariantItems tvNull [variantItemVP] []
        = transformVariantItems tvNull [] [] :=
  ⟨rfl, variant_missing_data_nonfatal.1 tvNull variantItemVP [] [] rfl⟩

/-- Claim C6 (counterexample): a batch holding a variant item whose
declared parent the catalog fetch does not return, next to a healthy
simple item, is processed to completion — the market does not throw and
an upsert (insert) call is still dispatched for the simple item. -/
theorem variant_not_found_counterexample :
    (processProductEvent tvNull tpFeed pmNone voEmpty smS1
        missingParentBatch).map dispatchKind = ["insert"]
    ∧ fetchVariantData pmNone voEmpty
        (categorizeItems missingParentBatch).complexParentSkus = [] :=
  ⟨rfl, rfl⟩

theorem mapped_transformProduct_ok_shipping (am : AttributeMapping)
    (fl : String) (p : CommerceProduct) (lang country ut : String)
    (out : ProductInput)
    (hok : Mapped.transformProduct am fl p lang country ut = .ok out) :
    out.productAttributes.shipping =
      match Mapped.getShippingInfo p country with
      | some si => some [si]
      | none => none := by
  simp only [Mapped.transformProduct] at hok
  cases hp : transformPrice p with
  | none => rw [hp] at hok; simp at hok
  | some price =>
      rw [hp] at hok
      simp only [Except.ok.injEq] at hok
      subst hok
      cases hsi : Mapped.getShippingInfo p country with
      | some si =>
          simp [hsi, buildProductInput, applyStandard,
            apply_ite (fun pa : ProductAttributes => pa.shipping)]
      | none =>
          simp [hsi, buildProductInput, applyStandard,
            apply_ite (fun pa : ProductAttributes => pa.shipping)]

/-- Claim C7: for every record transformed by the attribute-mapping
revision, a truthy `shippingPrice` attribute yields exactly one shipping
entry carrying the price in micros, the destination country and the
service label from the `shippingMethod` attribute defaulting to
`standard`; with no truthy `shippingPrice` attribute the shipping field
is omitted entirely. -/
theorem shipping_block_optional (am : AttributeMapping) (fl : String)
    (p : CommerceProduct) (lang country ut : String) (out : ProductInput)
    (hok : Mapped.transformProduct am fl p lang country ut = .ok out) :
    (∀ sp, getAttributeValue p.attributes "shippingPrice" = some sp →
       out.productAttributes.shipping = some
         [{ price := { amountMicros := toMicrosOfString sp,
                       currencyCode := shippingCurrencyFallback p }
            country := country
            service :=
              (getAttributeValue p.attributes "shippingMethod").getD
                "standard" }])
    ∧ (getAttributeValue p.attributes "shippingPrice" = none →
       out.productAttributes.shipping = none) := by
  have hs := mapped_transformProduct_ok_shipping am fl p lang country ut out hok
  constructor
  · intro sp hsp
    rw [hs]
    unfold Mapped.getShippingInfo
    simp only [hsp]
    rfl
  · intro hnone
    rw [hs]
    unfold Mapped.getShippingInfo
    simp only [hnone]

/-- Claim C7 (witness): the theorem applied to `shipProduct` under the
empty mapping configuration. -/
theorem shipping_block_optional_witness :
    Mapped.transformProduct amEmpty "f" shipProduct "en" "US" "u"
        = .ok shipOut
    ∧ shipOut.productAttributes.shipping = some
        [{ price := { amountMicros := toMicrosOfString "5.99",
                      currencyCode := shippingCurrencyFallback shipProduct }
           country := "US", service := "standard" }] := by
  have hok : Mapped.transformProduct amEmpty "f" shipProduct "en" "US" "u"
      = .ok shipOut := by rfl
  exact ⟨hok,
    (shipping_block_optional amEmpty "f" shipProduct "en" "US" "u" shipOut
      hok).1 "5.99" rfl⟩

theorem find_key_nodup (l : List (String × String)) (k v : String)
    (hnd : (l.map Prod.fst).Nodup) (hm : (k, v) ∈ l) :
    l.find? (fun e => e.1 == k) = some (k, v) := by
  induction l with
  | nil => exact absurd hm (List.not_mem_nil _)
  | cons a rest ih =>
      rw [List.map_cons] at hnd
      have hnotin := (List.nodup_cons.mp hnd).1
      have hndrest := (List.nodup_cons.mp hnd).2
      rcases List.mem_cons.mp hm with heq | hmem
      · rw [← heq]
        simp [List.find?_cons]
      · have hak : a.1 ≠ k := by
          intro hak
          apply hnotin
          rw [hak]
          exact List.mem_map.mpr ⟨(k, v), hmem, rfl⟩
        have hpa : (a.1 == k) = false := by simpa using hak
        simp only [List.find?_cons, hpa]
        exact ih hndrest hmem

/-- Claim C8 (counterexample): under the well-formed configuration
`amDegenerate` (unique keys), in which the empty-named field is
configured, the triple field-name round trip is not stable: the empty
custom value of another entry captures the reverse lookup. -/
theorem mapping_roundtrip_counterexample :
    getCustomAttrName amDegenerate
        (getGoogleFieldName amDegenerate (getCustomAttrName amDegenerate ""))
      ≠ getCustomAttrName amDegenerate ""
    ∧ ("", "") ∈ amDegenerate.fieldMappings
    ∧ (amDegenerate.fieldMappings.map Prod.fst).Nodup := by decide

/-- Claim C8 (amended): with unique mapping keys and a non-empty mapped
custom name, the field-name mapping is stable under the triple round
trip; and any non-empty value in a field's value map survives the
value round trip through the spec-modelled forward lookup. -/
theorem mapping_roundtrip_amended :
    (∀ (am : AttributeMapping) (f v : String),
        (am.fieldMappings.map Prod.fst).Nodup →
        (f, v) ∈ am.fieldMappings → v ≠ "" →
        getCustomAttrName am (getGoogleFieldName am (getCustomAttrName am f))
          = getCustomAttrName am f)
    ∧ (∀ (am : AttributeMapping) (field : String)
        (vm : List (String × String)) (gv v : String),
        am.valueMappings.find? (fun e => e.1 == field) = some (field, vm) →
        (vm.map Prod.fst).Nodup → (gv, v) ∈ vm → v ≠ "" →
        (mapEnumValue am (some v) field).map
            (fun d => valueToSource am d field) = some v) := by
  constructor
  · intro am f v hnd hm hv
    have hvb : (v == "") = false := by simpa using hv
    have hS : getCustomAttrName am f = v := by
      unfold getCustomAttrName
      rw [find_key_nodup _ _ _ hnd hm]
      simp [hvb]
    rw [hS]
    obtain ⟨e, he⟩ : ∃ e, am.fieldMappings.find? (fun e => e.2 == v)
        = some e := by
      cases hfind : am.fieldMappings.find? (fun e => e.2 == v) with
      | some e => exact ⟨e, rfl⟩
      | none =>
          exfalso
          have hc := List.find?_eq_none.mp hfind (f, v) hm
          simp at hc
    have he2 : e.2 = v := by simpa using List.find?_some he
    have hme : e ∈ am.fieldMappings := List.mem_of_find?_eq_some he
    unfold getGoogleFieldName
    rw [he]
    unfold getCustomAttrName
    have hmem2 : (e.1, v) ∈ am.fieldMappings := by
      rw [← he2]
      exact hme
    rw [find_key_nodup _ _ _ hnd hmem2]
    simp [hvb]
  · intro am field vm gv v hfm hnd hm hv
    have hvb : (v == "") = false := by simpa using hv
    obtain ⟨e, he⟩ : ∃ e, vm.find? (fun e => e.2 == v) = some e := by
      cases hfind : vm.find? (fun e => e.2 == v) with
      | some e => exact ⟨e, rfl⟩
      | none =>
          exfalso
          have hc := List.find?_eq_none.mp hfind (gv, v) hm
          simp at hc
    have he2 : e.2 = v := by simpa using List.find?_some he
    have hme : e ∈ vm := List.mem_of_find?_eq_some he
    have hmv : mapEnumValue am (some v) field = some e.1 := by
      simp only [mapEnumValue, hvb, Bool.false_eq_true, if_false, hfm, he]
    rw [hmv]
    have hmem2 : (e.1, v) ∈ vm := by
      rw [← he2]
      exact hme
    show some (valueToSource am e.1 field) = some v
    simp only [valueToSource, hfm, find_key_nodup _ _ _ hnd hmem2]

/-- Claim C8 (witness): the amended round trips at the sample
configuration. -/
theorem mapping_roundtrip_amended_witness :
    getCustomAttrName amSample
        (getGoogleFieldName amSample (getCustomAttrName amSample "mpn"))
      = getCustomAttrName amSample "mpn"
    ∧ (mapEnumValue amSample (some "Brand New") "condition").map
        (fun d => valueToSource amSample d "condition") = some "Brand New" :=
  ⟨mapping_roundtrip_amended.1 amSample "mpn" "manufacturer_code" (by decide)
      (by decide) (by decide),
   mapping_roundtrip_amended.2 amSample "condition" [("new", "Brand New")]
      "new" "Brand New" (by decide) (by decide) (by decide) (by decide)⟩

theorem groupByOperation_fold (items : List ChangeItem) :
    ∀ acc : OperationGroups,
      items.foldl
        (fun acc item =>
          if item.operation == "create" then
            { acc with create := acc.create ++ [item] }
          else if item.operation == "update" then
            { acc with update := acc.update ++ [item] }
          else if item.operation == "delete" then
            { acc with delete := acc.delete ++ [item] }
          else acc)
        acc
      = { create :=
            acc.create ++ items.filter (fun i => i.operation == "create")
          update :=
            acc.update ++ items.filter (fun i => i.operation == "update")
          delete :=
            acc.delete ++ items.filter (fun i => i.operation == "delete") } := by
  induction items with
  | nil => intro acc; simp
  | cons a rest ih =>
      intro acc
      rw [List.foldl_cons, ih, List.filter_cons, List.filter_cons,
        List.filter_cons]
      by_cases h1 : (a.operation == "create") = true
      · have hop : a.operation = "create" := by simpa using h1
        simp [hop]
      · by_cases h2 : (a.operation == "update") = true
        · have hop : a.operation = "update" := by simpa using h2
          simp [hop]
        · by_cases h3 : (a.operation == "delete") = true
          · have hop : a.operation = "delete" := by simpa using h3
            simp [hop]
          · simp [h1, h2, h3]

/-- Claim C9: `groupByOperation` partitions the items with operation
exactly `create`, `update` or `delete` into the three buckets in input
order, dropping every other operation; a batch of only unrecognized
operations yields three empty groups and `processProductEvent`
dispatches nothing. -/
theorem groupByOperation_partitions (items : List ChangeItem) :
    (groupByOperation items).create
        = items.filter (fun i => i.operation == "create")
    ∧ (groupByOperation items).update
        = items.filter (fun i => i.operation == "update")
    ∧ (groupByOperation items).delete
        = items.filter (fun i => i.operation == "delete")
    ∧ ((∀ i ∈ items, i.operation ≠ "create" ∧ i.operation ≠ "update"
          ∧ i.operation ≠ "delete") →
        groupByOperation items = { create := [], update := [], delete := [] }
        ∧ ∀ tv tp pm vo sm,
            processProductEvent tv tp pm vo sm items = []) := by
  have hg := groupByOperation_fold items
    { create := [], update := [], delete := [] }
  have hgb : groupByOperation items
      = { create := items.filter (fun i => i.operation == "create")
          update := items.filter (fun i => i.operation == "update")
          delete := items.filter (fun i => i.operation == "delete") } := by
    unfold groupByOperation
    rw [hg]
    simp
  refine ⟨by rw [hgb], by rw [hgb], by rw [hgb], ?c4⟩
  intro h
  have hc : items.filter (fun i => i.operation == "create") = [] :=
    List.filter_eq_nil_iff.mpr (fun a ha => by simpa using (h a ha).1)
  have hu : items.filter (fun i => i.operation == "update") = [] :=
    List.filter_eq_nil_iff.mpr (fun a ha => by simpa using (h a ha).2.1)
  have hd : items.filter (fun i => i.operation == "delete") = [] :=
    List.filter_eq_nil_iff.mpr (fun a ha => by simpa using (h a ha).2.2)
  have hgroups : groupByOperation items
      = { create := [], update := [], delete := [] } := by
    rw [hgb, hc, hu, hd]
  refine ⟨hgroups, ?_⟩
  intro tv tp pm vo sm
  unfold processProductEvent
  rw [hgroups]
  rfl

/-- Claim C9 (witness): the theorem applied to the batch holding only an
unrecognized operation. -/
theorem groupByOperation_partitions_witness :
    groupByOperation unknownOpBatch
        = { create := [], update := [], delete := [] }
    ∧ processProductEvent tvNull tpFeed pmNone voEmpty smS1 unknownOpBatch
        = [] :=
  ⟨((groupByOperation_partitions unknownOpBatch).2.2.2 (by decide)).1,
   ((groupByOperation_partitions unknownOpBatch).2.2.2 (by decide)).2 tvNull
     tpFeed pmNone voEmpty smS1⟩

theorem categorize_fold_condition (attrs : List CommerceAttribute) :
    ∀ acc : StandardFields × List CommerceAttribute,
    (∀ a ∈ attrs, a.name = "condition" → a.value = "") →
    (attrs.foldl categorizeStep acc).1.condition = acc.1.condition := by
  induction attrs with
  | nil => intro acc h; rfl
  | cons a rest ih =>
      intro acc h
      have hstep : (categorizeStep acc a).1.condition = acc.1.condition := by
        unfold categorizeStep
        split_ifs with hv hc
        · rfl
        · refine setStandardField_condition _ _ _ (fun hn => ?hx)
          have hveq := h a (List.mem_cons_self a rest) hn
          rw [hveq] at hv
          simp at hv
        · rfl
      rw [List.foldl_cons, ih _ (fun b hb => h b (List.mem_cons_of_mem _ hb)),
        hstep]

theorem transformProduct_ok_condition (fl : String) (p : CommerceProduct)
    (lang country ut : String) (out : ProductInput)
    (hok : transformProduct fl p lang country ut = .ok out) :
    out.productAttributes.condition =
      match (categorizeAttributes p.attributes).1.condition with
      | some v => .strVal v
      | none =>
          .enumVal (mapCondition (getAttributeValue p.attributes "condition"))
      := by
  simp only [transformProduct] at hok
  cases hp : transformPrice p with
  | none => rw [hp] at hok; simp at hok
  | some price =>
      rw [hp] at hok
      simp only [Except.ok.injEq] at hok
      subst hok
      simp [buildProductInput, applyIdentifiers, applyStandard,
        apply_ite (fun pa : ProductAttributes => pa.condition)]

/-- Claim C10 (counterexample): a record carrying a truthy condition
attribute that does not lowercase to new/used/refurbished is transformed
with the raw attribute string as condition — the standard-field spread
overrides the computed NEW enum value. -/
theorem condition_override_counterexample :
    (transformProduct "f" condProduct "en" "US" "u").map
        (fun o => o.productAttributes.condition)
      = .ok (.strVal "LikeNew")
    ∧ GoogleCondition.strVal "LikeNew" ≠ .enumVal .NEW :=
  ⟨rfl, by decide⟩

/-- Claim C10 (amended): `mapCondition` is total and defaults to the NEW
enum for null and for unrecognized (lowercased) inputs, and a record
whose condition attribute is absent or empty carries the NEW enum after
transformation; a record with a truthy condition attribute instead
carries that raw string (see the counterexample).  Every transformed
record carries a condition field. -/
theorem condition_total_default :
    mapCondition none = Condition.NEW
    ∧ (∀ s : String, jsToLower s ≠ "new" → jsToLower s ≠ "used" →
        jsToLower s ≠ "refurbished" → mapCondition (some s) = Condition.NEW)
    ∧ (∀ (fl : String) (p : CommerceProduct) (lang country ut : String)
        (out : ProductInput),
        transformProduct fl p lang country ut = .ok out →
        (∀ a ∈ p.attributes, a.name = "condition" → a.value = "") →
        out.productAttributes.condition = .enumVal Condition.NEW) := by
  refine ⟨rfl, ?b, ?c⟩
  · intro s h1 h2 h3
    show (if jsToLower s == "new" then Condition.NEW
      else if jsToLower s == "used" then Condition.USED
      else if jsToLower s == "refurbished" then Condition.REFURBISHED
      else Condition.NEW) = Condition.NEW
    rw [if_neg (by simpa using h1), if_neg (by simpa using h2),
      if_neg (by simpa using h3)]
  · intro fl p lang country ut out hok hattr
    have hcond := transformProduct_ok_condition fl p lang country ut out hok
    have hstd : (categorizeAttributes p.attributes).1.condition = none :=
      categorize_fold_condition p.attributes ({}, []) hattr
    rw [hcond, hstd]
    simp [getAttributeValue_eq_none p.attributes "condition" hattr]
    rfl

/-- Claim C10 (witness): the amended theorem at the unrecognized value
`Galaxy` and at the attribute-free `goodSimple`. -/
theorem condition_total_default_witness :
    mapCondition (some "Galaxy") = Condition.NEW
    ∧ goodSimpleOut.productAttributes.condition = .enumVal Condition.NEW :=
  ⟨condition_total_default.2.1 "Galaxy" (by decide) (by decide) (by decide),
   condition_total_default.2.2 "feed" goodSimple "en" "US" "u" goodSimpleOut
     (by rfl) (by simp [goodSimple])⟩
